import Mathlib

/-!
Verification of the service lifecycle coordinator (`pkg/server/server.go`).

The Go code is shallowly embedded: errors become an inductive `GoError`
mirroring `context.Canceled`, `fmt.Errorf` messages and `%w` wrapping;
the `errgroup` first-error aggregation becomes a fold over per-task results
listed in wall-clock arrival order; the coordinator's mutable fields
(`isInitialized`, `shutdownOnce`, `shutdownFinished`, the root cancel
function) become an explicit state record threaded through `init`, `Run`
and `Shutdown`.  External collaborators (the metrics environment recorder,
the SQL migration, the systemd socket) are parameters giving the outcome
the collaborator would produce when called.
-/

set_option autoImplicit false

namespace GrafanaServer

/-- Go error values as they appear in `server.go`: `context.Canceled`,
plain errors (`fmt.Errorf` with a message), and wrapped errors
(`fmt.Errorf("...: %w", err)`). -/
inductive GoError where
  | canceled
  | mk (msg : String)
  | wrap (msg : String) (inner : GoError)
  deriving Repr, DecidableEq

/-- `errors.Is(err, target)`: true if `err` equals `target` or some error in
`err`'s wrap chain equals `target`. -/
def errorsIs : GoError → GoError → Bool
  | .wrap msg inner, target => (GoError.wrap msg inner == target) || errorsIs inner target
  | e, target => e == target

/-- A background service as the coordinator sees it: whether it implements
`registry.CanBeDisabled`, what `IsDisabled()` would report, and what its
`Run(ctx)` would return when invoked in the scenario under study. -/
structure BackgroundService where
  canBeDisabled : Bool
  isDisabled : Bool
  runResult : Option GoError
  deriving Repr, DecidableEq

/-- The filter in `Server.Run`'s launch loop: a service is skipped iff it
implements `registry.CanBeDisabled` and reports disabled
(`if ok && canBeDisabled.IsDisabled() { continue }`). -/
def launchedServices (svcs : List BackgroundService) : List BackgroundService :=
  svcs.filter (fun svc => !(svc.canBeDisabled && svc.isDisabled))

/-- Indices (in registration order, counting from `start`) of the services
that the launch loop actually hands to `eg.Go`. -/
def enabledIdxFrom (start : Nat) : List BackgroundService → List Nat
  | [] => []
  | svc :: rest =>
    if svc.canBeDisabled && svc.isDisabled then enabledIdxFrom (start + 1) rest
    else start :: enabledIdxFrom (start + 1) rest

/-- The closure passed to `eg.Go` for one launched service.  The first input
is whether the shared group context was already done when the closure ran its
initial `select`; the second is what `service.Run(ctx)` returns when invoked.
The output pairs "was `service.Run` invoked" with the closure's returned
error: a pre-cancelled context short-circuits to `ctx.Err()`
(= `context.Canceled` for a cancel-derived context); otherwise errors that
`errors.Is`-match `context.Canceled` are converted to nil and any other
error is wrapped as `background service run error: %w`. -/
def serviceTask (ctxDoneAtSelect : Bool) (runRes : Option GoError) :
    Bool × Option GoError :=
  if ctxDoneAtSelect then (false, some GoError.canceled)
  else
    (true,
      match runRes with
      | some e =>
        if errorsIs e GoError.canceled then none
        else some (GoError.wrap "background service run error" e)
      | none => none)

/-- `errgroup.Group` aggregation: `eg.Wait()` returns the first non-nil
error among the goroutine results, taken in wall-clock arrival order
(`errOnce.Do` captures only the first). -/
def egFirstErr : List (Option GoError) → Option GoError
  | [] => none
  | none :: rest => egFirstErr rest
  | some e :: _ => some e

/-- The service phase of `Server.Run`: each launched task's observations
(`ctxDoneAtSelect`, `service.Run` result) are listed in arrival order;
`eg.Wait()` returns the first non-nil task error. -/
def runServicesResult (arrivals : List (Bool × Option GoError)) : Option GoError :=
  egFirstErr (arrivals.map (fun p => (serviceTask p.1 p.2).2))

/-- A task result is a clean stop from `Run`'s point of view: nil, or an
error that `errors.Is`-matches `context.Canceled`. -/
def isCleanStop : Option GoError → Bool
  | none => true
  | some e => errorsIs e GoError.canceled

/-- The coordinator's mutable fields.  `isInitDone` is `Server.isInitialized`
(guarded by `s.mtx`); `shutdownOnceUsed` records whether `s.shutdownOnce.Do`
has consumed its one shot; `shutdownFinishedClosed` is whether the
`shutdownFinished` channel has been closed; `closeCount` counts the
`close(s.shutdownFinished)` calls and `rootCancelCount` the `s.shutdownFn()`
calls, to state exactly-once properties. -/
structure Server where
  isInitDone : Bool
  shutdownOnceUsed : Bool
  shutdownFinishedClosed : Bool
  closeCount : Nat
  rootCancelCount : Nat
  deriving Repr, DecidableEq

/-- The state of a freshly constructed `Server` (before `New` runs `init`):
`context.WithCancel` has produced an uncancelled root context, the
`shutdownFinished` channel is open, and nothing has run yet. -/
def Server.initial : Server :=
  { isInitDone := false
    shutdownOnceUsed := false
    shutdownFinishedClosed := false
    closeCount := 0
    rootCancelCount := 0 }

/-- Side-effect counters for the one-time work inside `Server.init`:
`writePIDFile`, `metrics.SetEnvironmentInformation`, and
`SQLStore.Migrate`. -/
structure InitEffects where
  pidFileWrites : Nat
  setEnvCalls : Nat
  migrateCalls : Nat
  deriving Repr, DecidableEq

/-- No init work performed yet. -/
def InitEffects.zero : InitEffects :=
  { pidFileWrites := 0, setEnvCalls := 0, migrateCalls := 0 }

/-- Outcomes the fallible collaborators called from `Server.init` would
produce: the error (if any) from `metrics.SetEnvironmentInformation` and
from `SQLStore.Migrate`. -/
structure Collaborators where
  setEnvErr : Option GoError
  migrateErr : Option GoError
  deriving Repr, DecidableEq

/-- `Server.init`, faithful to the source order: under the mutex, return nil
at once if already initialized; otherwise set `isInitialized = true` FIRST,
then `writePIDFile`, then `metrics.SetEnvironmentInformation` (propagating
its error), then `login.Init` / `social.NewOAuthService` (no modelled
effect), then return `SQLStore.Migrate()`'s result.  Concurrent callers are
serialized by `s.mtx`, so any interleaving is a sequential composition of
these calls. -/
def Server.init (s : Server) (eff : InitEffects) (c : Collaborators) :
    Server × InitEffects × Option GoError :=
  if s.isInitDone then (s, eff, none)
  else
    let s := { s with isInitDone := true }
    let eff := { eff with pidFileWrites := eff.pidFileWrites + 1 }
    let eff := { eff with setEnvCalls := eff.setEnvCalls + 1 }
    match c.setEnvErr with
    | some e => (s, eff, some e)
    | none =>
      let eff := { eff with migrateCalls := eff.migrateCalls + 1 }
      (s, eff, c.migrateErr)

/-- `Server.ExitCode`: nil error maps to exit code 0, any non-nil error to
exit code 1. -/
def Server.ExitCode (runError : Option GoError) : Nat :=
  match runError with
  | some _ => 1
  | none => 0

/-- Log levels used by `Server`'s logger. -/
inductive LogLevel where
  | debug
  | info
  | warn
  | error
  deriving Repr, DecidableEq

/-- The environment `Server.notifySystemd` interacts with: the value of the
`NOTIFY_SOCKET` environment variable (empty string = unset), and the errors
(if any) that `net.DialUnix`, `conn.Write` and `conn.Close` would produce. -/
structure NotifyEnv where
  notifySocket : String
  dialErr : Option GoError
  writeErr : Option GoError
  closeErr : Option GoError
  deriving Repr, DecidableEq

/-- What a `notifySystemd` call did: the log lines it emitted, whether it
attempted to dial the socket, and the datagram payloads actually written. -/
structure NotifyResult where
  logs : List (LogLevel × String)
  dialAttempted : Bool
  sent : List String
  deriving Repr, DecidableEq

/-- `Server.notifySystemd(state)`: if `NOTIFY_SOCKET` is empty, log at debug
level and skip; otherwise dial the unix datagram socket (on failure log a
warning and return), write `state` (on failure log a warning), and close the
connection via `defer` (on failure log a warning).  The function returns
nothing to its caller: every failure is absorbed into a log line. -/
def Server.notifySystemd (env : NotifyEnv) (state : String) : NotifyResult :=
  if env.notifySocket = "" then
    { logs := [(LogLevel.debug, "NOTIFY_SOCKET environment variable empty or unset")]
      dialAttempted := false
      sent := [] }
  else
    match env.dialErr with
    | some _ =>
      { logs := [(LogLevel.warn, "Failed to connect to systemd")]
        dialAttempted := true
        sent := [] }
    | none =>
      let writeLogs :=
        match env.writeErr with
        | some _ => [(LogLevel.warn, "Failed to write notification to systemd")]
        | none => []
      let closeLogs :=
        match env.closeErr with
        | some _ => [(LogLevel.warn, "Failed to close connection")]
        | none => []
      { logs := writeLogs ++ closeLogs
        dialAttempted := true
        sent := match env.writeErr with | some _ => [] | none => [state] }

/-- Everything one call of `Server.Run` produced: the state after the
deferred `close(s.shutdownFinished)`, the accumulated init side effects, the
readiness notification outcome (`none` when init failed before the launch
phase was reached), and `Run`'s returned error. -/
structure RunOutput where
  server : Server
  eff : InitEffects
  notify : Option NotifyResult
  result : Option GoError
  deriving Repr, DecidableEq

/-- `Server.Run`: `defer close(s.shutdownFinished)` runs on every return
path; `s.init()` failure is returned directly; otherwise the enabled
services are launched (their arrival-ordered task outcomes are `arrivals`),
`notifySystemd("READY=1")` fires once, and `eg.Wait()`'s first error is
returned. -/
def Server.Run (s : Server) (eff : InitEffects) (c : Collaborators)
    (env : NotifyEnv) (arrivals : List (Bool × Option GoError)) : RunOutput :=
  let r := Server.init s eff c
  match r.2.2 with
  | some e =>
    { server := { r.1 with shutdownFinishedClosed := true, closeCount := r.1.closeCount + 1 }
      eff := r.2.1
      notify := none
      result := some e }
  | none =>
    { server := { r.1 with shutdownFinishedClosed := true, closeCount := r.1.closeCount + 1 }
      eff := r.2.1
      notify := some (Server.notifySystemd env "READY=1")
      result := runServicesResult arrivals }

/-- `Server.Shutdown(ctx, reason)`.  The boolean input says which arm of the
`select` inside the once-body wins: `true` when `Run` closed
`shutdownFinished` before the caller's context deadline, `false` when the
deadline elapsed first.  `sync.Once` semantics: only the first caller runs
the body (cancelling the root context and waiting); every other caller —
including concurrent ones, which block until the body completes — leaves its
local `err` at nil and returns it. -/
def Server.Shutdown (s : Server) (finishedBeforeDeadline : Bool) :
    Server × Option GoError :=
  if s.shutdownOnceUsed then (s, none)
  else
    let s := { s with shutdownOnceUsed := true, rootCancelCount := s.rootCancelCount + 1 }
    if finishedBeforeDeadline then (s, none)
    else (s, some (GoError.mk "timeout waiting for shutdown"))

/-- A sequence of `Shutdown` calls on one server, each with its own
deadline outcome; returns the final state and each caller's result in call
order. -/
def Server.shutdownSeq (s : Server) : List Bool → Server × List (Option GoError)
  | [] => (s, [])
  | b :: bs =>
    let r := Server.Shutdown s b
    let rest := Server.shutdownSeq r.1 bs
    (rest.1, r.2 :: rest.2)

/-- Observable milestones of `Server.Run`'s launch phase, used to state
ordering properties: `launch i` is the `eg.Go` call for the service at
registration index `i`, `notify` is the `notifySystemd("READY=1")` call, and
`egWaitReturn` is `eg.Wait()` returning. -/
inductive RunEvent where
  | launch (idx : Nat)
  | notify
  | egWaitReturn
  deriving Repr, DecidableEq

/-- The event trace of `Server.Run`'s service phase, in program order: one
launch per enabled service in registration order, then the readiness
notification, then the blocking wait. -/
def runTrace (svcs : List BackgroundService) : List RunEvent :=
  (enabledIdxFrom 0 svcs).map RunEvent.launch ++ [RunEvent.notify, RunEvent.egWaitReturn]

/-- Collaborators that both succeed. -/
def Collaborators.ok : Collaborators :=
  { setEnvErr := none, migrateErr := none }

/-- A notification environment with `NOTIFY_SOCKET` unset. -/
def NotifyEnv.unset : NotifyEnv :=
  { notifySocket := "", dialErr := none, writeErr := none, closeErr := none }

/-! ### Helper lemmas -/

theorem errorsIs_self (e : GoError) : errorsIs e e = true := by
  cases e <;> simp [errorsIs]

/-- `init` always leaves the server marked initialized and touches no other
field. -/
theorem Server.init_fst (s : Server) (eff : InitEffects) (c : Collaborators) :
    (Server.init s eff c).1 = { s with isInitDone := true } := by
  unfold Server.init
  by_cases h : s.isInitDone
  · cases s
    simp_all
  · simp only [h, if_neg, Bool.false_eq_true, not_false_eq_true, if_false]
    cases c.setEnvErr <;> simp

/-- Once the one-shot has been consumed, further `Shutdown` calls change
nothing and each returns nil. -/
theorem Server.shutdownSeq_used (s : Server) (h : s.shutdownOnceUsed = true) :
    ∀ bs : List Bool, Server.shutdownSeq s bs = (s, bs.map (fun _ => none)) := by
  intro bs
  induction bs with
  | nil => rfl
  | cons b bs ih =>
    simp [Server.shutdownSeq, Server.Shutdown, h, ih]

/-- A task that observed the context not yet done and got a clean-stop
result returns nil to the group. -/
theorem serviceTask_clean (r : Option GoError) (h : isCleanStop r = true) :
    (serviceTask false r).2 = none := by
  cases r with
  | none => rfl
  | some e => simp_all [serviceTask, isCleanStop]

/-- A task that observed the context not yet done and got a genuine
(non-cancellation) error returns it wrapped. -/
theorem serviceTask_bad (e : GoError) (h : errorsIs e GoError.canceled = false) :
    (serviceTask false (some e)).2
      = some (GoError.wrap "background service run error" e) := by
  simp [serviceTask, h]

/-- `egFirstErr` of an all-nil result list is nil. -/
theorem egFirstErr_all_none (l : List (Option GoError)) (h : ∀ r ∈ l, r = none) :
    egFirstErr l = none := by
  induction l with
  | nil => rfl
  | cons r rest ih =>
    have hr : r = none := h r (List.mem_cons_self r rest)
    subst hr
    simpa [egFirstErr] using ih (fun x hx => h x (List.mem_cons_of_mem _ hx))

/-- `egFirstErr` skips a leading block of nils. -/
theorem egFirstErr_append_none (l1 l2 : List (Option GoError))
    (h : ∀ r ∈ l1, r = none) : egFirstErr (l1 ++ l2) = egFirstErr l2 := by
  induction l1 with
  | nil => rfl
  | cons r rest ih =>
    have hr : r = none := h r (List.mem_cons_self r rest)
    subst hr
    simpa [egFirstErr] using ih (fun x hx => h x (List.mem_cons_of_mem _ hx))

/-- Every member of `enabledIdxFrom start svcs` points at a service that is
not skipped by the launch filter. -/
theorem enabledIdxFrom_mem (svcs : List BackgroundService) :
    ∀ start i, i ∈ enabledIdxFrom start svcs →
      ∃ svc, svcs[i - start]? = some svc
        ∧ (svc.canBeDisabled && svc.isDisabled) = false ∧ start ≤ i := by
  induction svcs with
  | nil => intro start i h; simp [enabledIdxFrom] at h
  | cons svc rest ih =>
    intro start i h
    unfold enabledIdxFrom at h
    by_cases hd : (svc.canBeDisabled && svc.isDisabled) = true
    · rw [if_pos hd] at h
      obtain ⟨t, ht, hok, hle⟩ := ih (start + 1) i h
      refine ⟨t, ?_, hok, by omega⟩
      have : i - start = (i - (start + 1)) + 1 := by omega
      simpa [this] using ht
    · rw [if_neg hd] at h
      rcases List.mem_cons.mp h with h0 | h1
      · subst h0
        exact ⟨svc, by simp, by simpa using hd, Nat.le_refl _⟩
      · obtain ⟨t, ht, hok, hle⟩ := ih (start + 1) i h1
        refine ⟨t, ?_, hok, by omega⟩
        have : i - start = (i - (start + 1)) + 1 := by omega
        simpa [this] using ht

/-! ### Claim theorems -/

/-- C9: `ExitCode` is a pure mapping on its error argument: nil yields the
success code 0 and every non-nil error yields the generic failure code 1,
with no classification by error kind. -/
theorem Server.exitCode_pure_mapping :
    Server.ExitCode none = 0 ∧ ∀ e : GoError, Server.ExitCode (some e) = 1 :=
  ⟨rfl, fun _ => rfl⟩

/-- C7: whenever `Run` returns — with nil, with a service error, or with an
initialization error — the deferred `close(s.shutdownFinished)` marks the
completion signal, and it is marked exactly once per run (the close counter
rises by exactly one on every return path). -/
theorem Server.run_marks_completion_exactly_once
    (s : Server) (eff : InitEffects) (c : Collaborators) (env : NotifyEnv)
    (arrivals : List (Bool × Option GoError)) :
    (Server.Run s eff c env arrivals).server.shutdownFinishedClosed = true
    ∧ (Server.Run s eff c env arrivals).server.closeCount = s.closeCount + 1 := by
  have hfst := Server.init_fst s eff c
  unfold Server.Run
  cases hr : (Server.init s eff c).2.2 <;> simp [hr, hfst]

/-- C5: for the call that actually performs the shutdown sequence (the
one-shot is still unused), `Shutdown` returns nil when `Run` closed the
completion channel before the caller's deadline and the timeout error when
the deadline elapsed first; in the timeout case nothing about `Run`'s own
completion state is altered — no forced termination occurs. -/
theorem Server.shutdown_triggering_call_outcome
    (s : Server) (h : s.shutdownOnceUsed = false) (b : Bool) :
    ((Server.Shutdown s b).2
        = if b then none else some (GoError.mk "timeout waiting for shutdown"))
    ∧ (Server.Shutdown s b).1.shutdownFinishedClosed = s.shutdownFinishedClosed
    ∧ (Server.Shutdown s b).1.closeCount = s.closeCount := by
  unfold Server.Shutdown
  cases b <;> simp [h]

theorem Server.shutdown_triggering_call_outcome_witness :
    Server.initial.shutdownOnceUsed = false
    ∧ (Server.Shutdown Server.initial false).2
        = some (GoError.mk "timeout waiting for shutdown") := by
  refine ⟨rfl, ?_⟩
  have h := Server.shutdown_triggering_call_outcome Server.initial rfl false
  simpa using h.1

/-- C3 (code behavior at the claim's failing input): when the
environment-metadata step fails on a fresh server, `init` does propagate the
error, but the server is left MARKED INITIALIZED — contrary to the claim's
"leaves the state uninitialized" — so a subsequent `init` call returns nil
immediately and retries none of the one-time setup work. -/
theorem Server.init_failure_leaves_initialized :
    (Server.init Server.initial InitEffects.zero
        { setEnvErr := some (GoError.mk "env failure"), migrateErr := none }).2.2
      = some (GoError.mk "env failure")
    ∧ (Server.init Server.initial InitEffects.zero
        { setEnvErr := some (GoError.mk "env failure"), migrateErr := none }).1.isInitDone
      = true
    ∧ (Server.init
        (Server.init Server.initial InitEffects.zero
          { setEnvErr := some (GoError.mk "env failure"), migrateErr := none }).1
        (Server.init Server.initial InitEffects.zero
          { setEnvErr := some (GoError.mk "env failure"), migrateErr := none }).2.1
        Collaborators.ok).2.2 = none
    ∧ (Server.init
        (Server.init Server.initial InitEffects.zero
          { setEnvErr := some (GoError.mk "env failure"), migrateErr := none }).1
        (Server.init Server.initial InitEffects.zero
          { setEnvErr := some (GoError.mk "env failure"), migrateErr := none }).2.1
        Collaborators.ok).2.1.migrateCalls = 0 :=
  ⟨rfl, rfl, rfl, rfl⟩

/-- C6 counterexample: two sequential `init` calls (one possible
interleaving of two callers under the mutex) where the first call's
environment-metadata step fails: the first caller observes the error while
the second observes nil — the callers do NOT observe the same outcome. -/
theorem Server.init_second_caller_sees_success_after_failure :
    (Server.init Server.initial InitEffects.zero
        { setEnvErr := some (GoError.mk "env failure"), migrateErr := none }).2.2
      = some (GoError.mk "env failure")
    ∧ (Server.init
        (Server.init Server.initial InitEffects.zero
          { setEnvErr := some (GoError.mk "env failure"), migrateErr := none }).1
        (Server.init Server.initial InitEffects.zero
          { setEnvErr := some (GoError.mk "env failure"), migrateErr := none }).2.1
        { setEnvErr := some (GoError.mk "env failure"), migrateErr := none }).2.2
      = none :=
  ⟨rfl, rfl⟩

/-- C6 amended: calling `init` when already initialized returns success with
no side effects; across any two sequential calls (the mutex serializes
concurrent callers) the one-time setup work executes exactly once — the
second call changes neither state nor effect counters — and both callers
observe the same (nil) outcome whenever the first call's setup work
succeeds; only on first-call failure do the outcomes differ. -/
theorem Server.init_idempotent_effects_once
    (s : Server) (eff : InitEffects) (c c2 : Collaborators) :
    (s.isInitDone = true → Server.init s eff c = (s, eff, none))
    ∧ (Server.init (Server.init s eff c).1 (Server.init s eff c).2.1 c2).1
        = (Server.init s eff c).1
    ∧ (Server.init (Server.init s eff c).1 (Server.init s eff c).2.1 c2).2.1
        = (Server.init s eff c).2.1
    ∧ ((Server.init s eff c).2.2 = none →
        (Server.init (Server.init s eff c).1 (Server.init s eff c).2.1 c2).2.2 = none)
    ∧ (s.isInitDone = false →
        (Server.init s eff c).2.1.pidFileWrites = eff.pidFileWrites + 1) := by
  have hnoop : ∀ (s' : Server) (eff' : InitEffects) (c' : Collaborators),
      s'.isInitDone = true → Server.init s' eff' c' = (s', eff', none) := by
    intro s' eff' c' h
    unfold Server.init
    simp [h]
  have hdone : (Server.init s eff c).1.isInitDone = true := by
    rw [Server.init_fst]
  have h2 := hnoop (Server.init s eff c).1 (Server.init s eff c).2.1 c2 hdone
  refine ⟨fun h => hnoop s eff c h, by rw [h2], by rw [h2], fun _ => by rw [h2], ?_⟩
  intro h
  unfold Server.init
  rw [if_neg (by simp [h])]
  cases c.setEnvErr <;> simp

theorem Server.init_idempotent_effects_once_witness :
    Server.init { Server.initial with isInitDone := true } InitEffects.zero Collaborators.ok
      = ({ Server.initial with isInitDone := true }, InitEffects.zero, none)
    ∧ (Server.init Server.initial InitEffects.zero Collaborators.ok).2.1.pidFileWrites
      = InitEffects.zero.pidFileWrites + 1 :=
  ⟨(Server.init_idempotent_effects_once { Server.initial with isInitDone := true }
      InitEffects.zero Collaborators.ok Collaborators.ok).1 rfl,
   (Server.init_idempotent_effects_once Server.initial
      InitEffects.zero Collaborators.ok Collaborators.ok).2.2.2.2 rfl⟩

/-- C2 counterexample: on a fresh server, a first `Shutdown` whose deadline
elapses before `Run` finishes returns the timeout error, while a second
`Shutdown` call in the same situation (deadline elapsed, `Run` still not
finished) returns nil — the callers do not observe the same outcome, and
the second caller gets nil where the claim requires a timeout error. -/
theorem Server.shutdown_second_caller_nil_after_timeout :
    (Server.shutdownSeq Server.initial [false, false]).2
      = [some (GoError.mk "timeout waiting for shutdown"), none] := rfl

/-- C2 amended: the root-context cancellation executes exactly once no
matter how many `Shutdown` calls follow the first; the triggering caller
observes nil if `Run` finished before its deadline and the timeout error
otherwise; every subsequent caller returns nil unconditionally once the
one-shot body has completed. -/
theorem Server.shutdown_cancel_exactly_once
    (s : Server) (h : s.shutdownOnceUsed = false) (b : Bool) (bs : List Bool) :
    (Server.shutdownSeq (Server.Shutdown s b).1 bs).1.rootCancelCount
        = s.rootCancelCount + 1
    ∧ ((Server.Shutdown s b).2
        = if b then none else some (GoError.mk "timeout waiting for shutdown"))
    ∧ ∀ x ∈ (Server.shutdownSeq (Server.Shutdown s b).1 bs).2, x = none := by
  have hu : (Server.Shutdown s b).1.shutdownOnceUsed = true := by
    unfold Server.Shutdown
    cases b <;> simp [h]
  have hc : (Server.Shutdown s b).1.rootCancelCount = s.rootCancelCount + 1 := by
    unfold Server.Shutdown
    cases b <;> simp [h]
  have hseq := Server.shutdownSeq_used (Server.Shutdown s b).1 hu bs
  refine ⟨by rw [hseq]; exact hc, ?_, ?_⟩
  · unfold Server.Shutdown
    cases b <;> simp [h]
  · intro x hx
    rw [hseq] at hx
    obtain ⟨a, _, ha⟩ := List.mem_map.mp hx
    exact ha.symm

theorem Server.shutdown_cancel_exactly_once_witness :
    (Server.shutdownSeq (Server.Shutdown Server.initial false).1 [true, false]).1.rootCancelCount
      = Server.initial.rootCancelCount + 1 :=
  (Server.shutdown_cancel_exactly_once Server.initial rfl false [true, false]).1

/-- C4: a service that implements the disableable capability and reports
disabled is excluded from the launch loop wherever it sits in the
registered sequence: the launched list is as if the service were absent
(so it contributes nothing downstream), the service is not a member of the
launched list, and no launch event for its registration index appears in
the run trace. -/
theorem Server.disabled_service_never_launched
    (pre post : List BackgroundService) (svc : BackgroundService)
    (h1 : svc.canBeDisabled = true) (h2 : svc.isDisabled = true) :
    launchedServices (pre ++ svc :: post) = launchedServices (pre ++ post)
    ∧ svc ∉ launchedServices (pre ++ svc :: post)
    ∧ RunEvent.launch pre.length ∉ runTrace (pre ++ svc :: post) := by
  refine ⟨?_, ?_, ?_⟩
  · unfold launchedServices
    simp [List.filter_append, List.filter_cons, h1, h2]
  · intro hmem
    have hpred := List.of_mem_filter hmem
    simp [h1, h2] at hpred
  · intro hmem
    unfold runTrace at hmem
    rcases List.mem_append.mp hmem with hl | hr
    · obtain ⟨i, hi, hik⟩ := List.mem_map.mp hl
      have hieq : i = pre.length := by injection hik
      subst hieq
      obtain ⟨t, ht, hok, _⟩ :=
        enabledIdxFrom_mem (pre ++ svc :: post) 0 pre.length hi
      rw [Nat.sub_zero] at ht
      rw [List.getElem?_append_right (Nat.le_refl _)] at ht
      simp at ht
      rw [← ht] at hok
      simp [h1, h2] at hok
    · simp at hr

theorem Server.disabled_service_never_launched_witness :
    launchedServices [{ canBeDisabled := true, isDisabled := true, runResult := none }]
      = launchedServices [] :=
  (Server.disabled_service_never_launched [] []
    { canBeDisabled := true, isDisabled := true, runResult := none } rfl rfl).1

/-- Any non-nil aggregate the service phase can produce is either the wrap
of a genuine (non-cancellation) service error that occurred in the run, or
the raw `context.Canceled` handed to the group by a task whose pre-check
found the shared context already done. -/
theorem runServicesResult_some_shape :
    ∀ (arrivals : List (Bool × Option GoError)) (g : GoError),
      runServicesResult arrivals = some g →
        (∃ e, g = GoError.wrap "background service run error" e
          ∧ errorsIs e GoError.canceled = false
          ∧ (false, some e) ∈ arrivals)
        ∨ (g = GoError.canceled ∧ ∃ r, (true, r) ∈ arrivals) := by
  intro arrivals
  induction arrivals with
  | nil =>
    intro g hg
    simp [runServicesResult, egFirstErr] at hg
  | cons p rest ih =>
    intro g hg
    obtain ⟨b, r⟩ := p
    cases b with
    | true =>
      have hcan : runServicesResult ((true, r) :: rest) = some GoError.canceled := by
        simp [runServicesResult, egFirstErr, serviceTask]
      have hgc : GoError.canceled = g := by
        have := hcan.symm.trans hg
        exact Option.some.inj this
      exact Or.inr ⟨hgc.symm, r, List.mem_cons_self _ _⟩
    | false =>
      cases htask : (serviceTask false r).2 with
      | none =>
        have hg' : runServicesResult rest = some g := by
          simpa [runServicesResult, egFirstErr, htask] using hg
        rcases ih g hg' with ⟨e, he1, he2, he3⟩ | ⟨hgc, r', hr'⟩
        · exact Or.inl ⟨e, he1, he2, List.mem_cons_of_mem _ he3⟩
        · exact Or.inr ⟨hgc, r', List.mem_cons_of_mem _ hr'⟩
      | some w =>
        have hgw : w = g := by
          simpa [runServicesResult, egFirstErr, htask] using hg
        cases r with
        | none => simp [serviceTask] at htask
        | some e =>
          by_cases hc : errorsIs e GoError.canceled = true
          · simp [serviceTask, hc] at htask
          · have hc' : errorsIs e GoError.canceled = false := by
              simpa using hc
            simp [serviceTask, hc'] at htask
            exact Or.inl ⟨e, by rw [← hgw, ← htask], hc', List.mem_cons_self _ _⟩

/-- C1 counterexample: a run in which `Shutdown` cancels the root context
while the launch phase is still scheduling tasks — the first task's
pre-check finds the group context done and returns `ctx.Err()` unfiltered,
then a second service fails with the genuine error `boom`.  `Run` returns
`context.Canceled`: the genuine service error is NOT retained as the result
and the result is neither nil nor (a wrap of) the first service error,
refuting the claim on this reachable run. -/
theorem Server.run_cancellation_masks_service_error :
    (Server.Run Server.initial InitEffects.zero Collaborators.ok NotifyEnv.unset
        [(true, none), (false, some (GoError.mk "boom"))]).result
      = some GoError.canceled
    ∧ (Server.Run Server.initial InitEffects.zero Collaborators.ok NotifyEnv.unset
        [(true, none), (false, some (GoError.mk "boom"))]).result
      ≠ some (GoError.wrap "background service run error" (GoError.mk "boom"))
    ∧ (Server.Run Server.initial InitEffects.zero Collaborators.ok NotifyEnv.unset
        [(true, none), (false, some (GoError.mk "boom"))]).result
      ≠ none :=
  ⟨rfl, by decide, by decide⟩

/-- C1 amended: over the service phase of any run, with task observations
listed in arrival order: (i) if every launched task invoked its service and
got nil or an `errors.Is`-cancellation error, the aggregate is nil; (ii) any
non-nil aggregate is either the wrap of a genuine non-cancellation service
error from the run — so a service error that is or wraps
`context.Canceled` never becomes `Run`'s result — or the raw
`context.Canceled` from a task whose pre-check found the group context
already cancelled; (iii) when the tasks ahead of the first genuine service
error invoked their services and stopped cleanly, that error is retained as
the aggregate (wrapped with the `background service run error` context,
under which `errors.Is` still recognizes it) regardless of later task
returns; (iv) a pre-cancelled task arriving first makes the raw
cancellation error the aggregate.  The aggregate is a function of the full
arrival list: `eg.Wait()` returns only after every launched task has. -/
theorem Server.run_retains_first_task_error
    (arrivals : List (Bool × Option GoError)) :
    ((∀ p ∈ arrivals, p.1 = false ∧ isCleanStop p.2 = true) →
        runServicesResult arrivals = none)
    ∧ (∀ g, runServicesResult arrivals = some g →
        (∃ e, g = GoError.wrap "background service run error" e
          ∧ errorsIs e GoError.canceled = false
          ∧ (false, some e) ∈ arrivals)
        ∨ (g = GoError.canceled ∧ ∃ r, (true, r) ∈ arrivals))
    ∧ (∀ pre e rest,
        arrivals = pre ++ (false, some e) :: rest →
        (∀ p ∈ pre, p.1 = false ∧ isCleanStop p.2 = true) →
        errorsIs e GoError.canceled = false →
        runServicesResult arrivals
            = some (GoError.wrap "background service run error" e)
          ∧ errorsIs (GoError.wrap "background service run error" e) e = true)
    ∧ (∀ r rest, runServicesResult ((true, r) :: rest) = some GoError.canceled) := by
  refine ⟨?_, runServicesResult_some_shape arrivals, ?_, ?_⟩
  · intro hclean
    unfold runServicesResult
    apply egFirstErr_all_none
    intro r hr
    obtain ⟨p, hp, hpr⟩ := List.mem_map.mp hr
    rw [← hpr]
    rw [(hclean p hp).1]
    exact serviceTask_clean p.2 (hclean p hp).2
  · intro pre e rest heq hclean hnc
    subst heq
    constructor
    · unfold runServicesResult
      rw [List.map_append]
      rw [egFirstErr_append_none]
      · simp [egFirstErr, serviceTask_bad e hnc]
      · intro r hr
        obtain ⟨p, hp, hpr⟩ := List.mem_map.mp hr
        rw [← hpr]
        rw [(hclean p hp).1]
        exact serviceTask_clean p.2 (hclean p hp).2
    · simp [errorsIs, errorsIs_self]
  · intro r rest
    simp [runServicesResult, egFirstErr, serviceTask]

theorem Server.run_retains_first_task_error_witness :
    runServicesResult
        [(false, some (GoError.wrap "stopped" GoError.canceled)),
         (false, some (GoError.mk "boom")),
         (true, none)]
      = some (GoError.wrap "background service run error" (GoError.mk "boom")) :=
  ((Server.run_retains_first_task_error _).2.2.1
    [(false, some (GoError.wrap "stopped" GoError.canceled))]
    (GoError.mk "boom") [(true, none)]
    rfl (by decide) (by decide)).1

/-- C10 counterexample: one launched service whose task finds the group
context already cancelled.  The task returns `ctx.Err()` (the cancellation
error) to the group with `service.Run` never invoked — and, there being no
earlier error, `eg.Wait()` retains it and `Run` returns it: the
cancellation error is escalated to `Run`'s caller, not suppressed. -/
theorem Server.precancelled_task_error_escalates :
    (Server.Run Server.initial InitEffects.zero Collaborators.ok NotifyEnv.unset
        [(true, none)]).result = some GoError.canceled := rfl

/-- C10 amended: a task that finds the group context already done never
invokes its service's `Run` and hands `ctx.Err()` (= `context.Canceled`) to
the group, where first-error-wins applies: if a genuine service failure
arrived earlier (the usual cause of the cancellation), that failure is
retained and the cancellation error is dropped; only absent any earlier
error can the cancellation error itself become the aggregate. -/
theorem Server.precancelled_task_skips_service_run
    (r : Option GoError) :
    (serviceTask true r).1 = false
    ∧ (serviceTask true r).2 = some GoError.canceled
    ∧ (∀ e rest, errorsIs e GoError.canceled = false →
        runServicesResult ((false, some e) :: (true, r) :: rest)
          = some (GoError.wrap "background service run error" e)) := by
  refine ⟨rfl, rfl, ?_⟩
  intro e rest hnc
  simp [runServicesResult, egFirstErr, serviceTask, hnc]

theorem Server.precancelled_task_skips_service_run_witness :
    runServicesResult [(false, some (GoError.mk "boom")), (true, none)]
      = some (GoError.wrap "background service run error" (GoError.mk "boom")) :=
  (Server.precancelled_task_skips_service_run none).2.2 (GoError.mk "boom") [] (by decide)

/-- C8: the run trace contains exactly one readiness notification, placed
after every launch event and before `eg.Wait()` returns; with `NOTIFY_SOCKET`
unset the notification is skipped with only a debug log and no dial attempt;
when init succeeds `Run` performs the notification exactly once
(`notify = some …`); and `Run`'s result is the same whatever the
notification environment — dial, write or close failures never affect it. -/
theorem Server.notify_once_best_effort
    (svcs : List BackgroundService) (s : Server) (eff : InitEffects)
    (c : Collaborators) (env env2 : NotifyEnv)
    (arrivals : List (Bool × Option GoError)) :
    (runTrace svcs).count RunEvent.notify = 1
    ∧ (∃ pfx, runTrace svcs = pfx ++ [RunEvent.notify, RunEvent.egWaitReturn]
        ∧ ∀ ev ∈ pfx, ∃ k, ev = RunEvent.launch k)
    ∧ (env.notifySocket = "" →
        Server.notifySystemd env "READY=1"
          = { logs := [(LogLevel.debug, "NOTIFY_SOCKET environment variable empty or unset")]
              dialAttempted := false
              sent := [] })
    ∧ (c.setEnvErr = none → c.migrateErr = none →
        (Server.Run s eff c env arrivals).notify
          = some (Server.notifySystemd env "READY=1"))
    ∧ (Server.Run s eff c env arrivals).result
        = (Server.Run s eff c env2 arrivals).result := by
  refine ⟨?_, ?_, ?_, ?_, ?_⟩
  · unfold runTrace
    rw [List.count_append]
    have h0 : ((enabledIdxFrom 0 svcs).map RunEvent.launch).count RunEvent.notify = 0 := by
      rw [List.count_eq_zero]
      intro hmem
      obtain ⟨k, _, hk⟩ := List.mem_map.mp hmem
      exact RunEvent.noConfusion hk
    rw [h0]
    decide
  · refine ⟨(enabledIdxFrom 0 svcs).map RunEvent.launch, rfl, ?_⟩
    intro ev hev
    obtain ⟨k, _, hk⟩ := List.mem_map.mp hev
    exact ⟨k, hk.symm⟩
  · intro hunset
    unfold Server.notifySystemd
    rw [if_pos hunset]
  · intro h1 h2
    have hinit : (Server.init s eff c).2.2 = none := by
      unfold Server.init
      by_cases hd : s.isInitDone <;> simp [hd, h1, h2]
    unfold Server.Run
    simp [hinit]
  · unfold Server.Run
    cases hr : (Server.init s eff c).2.2 <;> simp [hr]

theorem Server.notify_once_best_effort_witness :
    (runTrace []).count RunEvent.notify = 1
    ∧ Server.notifySystemd NotifyEnv.unset "READY=1"
        = { logs := [(LogLevel.debug, "NOTIFY_SOCKET environment variable empty or unset")]
            dialAttempted := false
            sent := [] }
    ∧ (Server.Run Server.initial InitEffects.zero Collaborators.ok NotifyEnv.unset []).notify
        = some (Server.notifySystemd NotifyEnv.unset "READY=1") :=
  ⟨(Server.notify_once_best_effort [] Server.initial InitEffects.zero Collaborators.ok
      NotifyEnv.unset NotifyEnv.unset []).1,
   (Server.notify_once_best_effort [] Server.initial InitEffects.zero Collaborators.ok
      NotifyEnv.unset NotifyEnv.unset []).2.2.1 rfl,
   (Server.notify_once_best_effort [] Server.initial InitEffects.zero Collaborators.ok
      NotifyEnv.unset NotifyEnv.unset []).2.2.2.1 rfl rfl⟩

end GrafanaServer
